import Mathlib

/-!
Verification of the speed-test / verification engine of SmartHostsTool.

Shallow embedding of the core logic of `services.py` (SpeedTester,
EnhancedSpeedTester) and the ranking/selection logic of `main_window.py`
(`_rank_key_for_result_row`, `write_best_ip_to_hosts`), together with the
shipped configuration of `config.py`.

Conventions:
* Python floats are embedded as exact rationals (ℚ); Python ints as Int/Nat.
* Python strings that the code branches on (the status strings such as
  "可用(TLS)") are embedded as lists of characters, so that the exact
  `startswith` / substring / equality tests of the source can be stated.
* Network and OS effects (TCP connect, TLS handshake, ICMP subprocess) are
  oracles: functions supplied as parameters that return the outcome the
  environment would produce; cooperative stop flags are Boolean schedules.
-/

namespace SmartHosts

/-- Python strings as character lists (so the byte-level tests of the source
can be mirrored exactly). -/
abbrev PyStr := List Char

/-- Substring test, Python's `pat in s`. -/
def listContains (pat : PyStr) : PyStr → Bool
  | [] => pat.isEmpty
  | c :: rest => pat.isPrefixOf (c :: rest) || listContains pat rest

/-- Decimal digit character, for rendering retry counts. -/
def digitChar (d : Nat) : Char := Char.ofNat (48 + d % 10)

/-- Decimal rendering of a natural number (fuel-based, fuel `n+1` always
suffices since `n/10` strictly decreases). Models Python's str(n) inside
f-strings. -/
def natCharsAux : Nat → Nat → List Char → List Char
  | 0, _, acc => acc
  | fuel + 1, n, acc =>
    if n < 10 then digitChar n :: acc
    else natCharsAux fuel (n / 10) (digitChar (n % 10) :: acc)

def natChars (n : Nat) : List Char := natCharsAux (n + 1) n []

/-- The first component of a TLS error string of `tls_sni_verify` /
`tls_sni_verify_any` — what `(tls_err or "").split(":", 1)[0]` yields.
`tls_sni_verify` produces "cert_verify:…", "ssl_error:…", "timeout" or
"err:…"; `tls_sni_verify_any` can additionally produce "stopped"; the code
falls back to "fail" when no error text is available. -/
inductive ShortErr
  | certVerify
  | sslError
  | timeoutE
  | errE
  | stoppedE
  | failE
deriving DecidableEq

def ShortErr.text : ShortErr → PyStr
  | .certVerify => "cert_verify".data
  | .sslError => "ssl_error".data
  | .timeoutE => "timeout".data
  | .errE => "err".data
  | .stoppedE => "stopped".data
  | .failE => "fail".data

/-- The closed set of status strings the tester produces.
`failedExc` is the `f"失败:{str(e)[:12]}"` row created by
`_collect_speedtest_results` when a worker future raises. -/
inductive Status
  | available
  | availableTLS
  | availableTcpTlsFailed (short : ShortErr)
  | availableICMP
  | failed
  | failedSNI (short : ShortErr)
  | failedRetry (n : Nat)
  | failedExc (msg : PyStr)
  | stopped
deriving DecidableEq

/-- The exact display/branching string of each status, as produced by
`services.py` (`"可用"`, `"可用(TLS)"`, `f"可用(TCP,TLS失败:{short})"`,
`"可用(ICMP)"`, `"失败"`, `f"失败(SNI:{short})"`, `f"失败(重试{n}次)"`,
`f"失败:{msg}"`, `"已停止"`). -/
def Status.chars : Status → PyStr
  | .available => ['可', '用']
  | .availableTLS => ['可', '用', '(', 'T', 'L', 'S', ')']
  | .availableTcpTlsFailed e =>
      ['可', '用', '(', 'T', 'C', 'P', ',', 'T', 'L', 'S', '失', '败', ':'] ++ e.text ++ [')']
  | .availableICMP => ['可', '用', '(', 'I', 'C', 'M', 'P', ')']
  | .failed => ['失', '败']
  | .failedSNI e => ['失', '败', '(', 'S', 'N', 'I', ':'] ++ e.text ++ [')']
  | .failedRetry n => ['失', '败', '(', '重', '试'] ++ natChars n ++ ['次', ')']
  | .failedExc msg => ['失', '败', ':'] ++ msg
  | .stopped => ['已', '停', '止']

/-- Embedding of `status.startswith("可用")` — the "available variant" test used by
`test_with_retry` and `write_best_ip_to_hosts`. -/
def startsAvail (st : Status) : Bool := ['可', '用'].isPrefixOf st.chars

/-- Embedding of `"(TLS)" in status` — the TLS-verified test used by
`_rank_key_for_result_row` and `write_best_ip_to_hosts`. -/
def hasTLSTag (st : Status) : Bool := listContains ['(', 'T', 'L', 'S', ')'] st.chars

/-- Embedding of `status == "已停止"` — the cancellation test of `test_with_retry`. -/
def statusEqStopped (st : Status) : Bool := st.chars == ['已', '停', '止']

/-! ## Sampler / metrics aggregator (`SpeedTester.tcp_advanced_metrics`) -/

/-- Insertion of one element into an ascending list; `sortRats` models
Python's `sorted(...)` used by `statistics.median`. -/
def insertSorted (x : ℚ) : List ℚ → List ℚ
  | [] => [x]
  | y :: ys => if x ≤ y then x :: y :: ys else y :: insertSorted x ys

def sortRats (l : List ℚ) : List ℚ := l.foldr insertSorted []

/-- Embedding of `statistics.median`: middle element of the sorted list, or the average of
the two middle elements for even length. -/
def medianOf (l : List ℚ) : ℚ :=
  let s := sortRats l
  let n := s.length
  if n % 2 = 1 then s.getD (n / 2) 0
  else (s.getD (n / 2 - 1) 0 + s.getD (n / 2) 0) / 2

/-- Embedding of `statistics.mean`. -/
def meanOf (l : List ℚ) : ℚ := l.sum / l.length

/-- The square of `statistics.stdev` (sample standard deviation, `n - 1`
denominator). The code's `jitter` is the square root of this; the square
root of a rational is irrational in general, so the embedding carries the
variance — `sqrt` is strictly monotone on nonnegatives, so nothing is
lost. -/
def sampleVar (l : List ℚ) : ℚ :=
  ((l.map fun x => (x - meanOf l) ^ 2).sum) / ((l.length : ℚ) - 1)

/-- The attempt loop of `tcp_advanced_metrics`: at the start of iteration `i`
the stop flag is polled (`stop i`); otherwise one probe is issued.
`probe i` is the outcome `(rtt, err)` of `_tcp_connect_rtt_ms` at attempt
`i`; the accumulator carries `(latencies, last_err)`. -/
def attemptLoop (probe : Nat → Option ℚ × Option PyStr) (stop : Nat → Bool) :
    Nat → Nat → List ℚ × Option PyStr → List ℚ × Option PyStr
  | _, 0, acc => acc
  | i, fuel + 1, acc =>
    if stop i then acc
    else
      let r := probe i
      let lat2 := match r.1 with
        | some rtt => acc.1 ++ [rtt]
        | none => acc.1
      attemptLoop probe stop (i + 1) fuel (lat2, r.2)

/-- The metrics dictionary returned by `tcp_advanced_metrics`.
`latencies` is the list of successful samples in arrival order
(`success_count == len(latencies)` in the source, as both are updated
together). The source's `stability_score` field is
`_calculate_stability_score median (sqrt jitterSq) packetLoss`; it is kept
out of the record because of the irrational square root (see
`calculateStabilityScore` below for the function itself). -/
structure AdvMetrics where
  latencies : List ℚ
  median : Option ℚ
  mean : Option ℚ
  minMs : Option ℚ
  maxMs : Option ℚ
  jitterSq : Option ℚ
  packetLoss : ℚ
  successRate : ℚ
  sampleCount : Nat
  ok : Bool
  err : Option PyStr
deriving DecidableEq

def tcpAdvancedMetrics (attempts : Nat) (probe : Nat → Option ℚ × Option PyStr)
    (stop : Nat → Bool) : AdvMetrics :=
  let res := attemptLoop probe stop 0 attempts ([], none)
  let lat := res.1
  if lat.isEmpty then
    { latencies := [], median := none, mean := none, minMs := none, maxMs := none
      jitterSq := none, packetLoss := 100, successRate := 0, sampleCount := 0
      ok := false, err := res.2 }
  else
    { latencies := lat
      median := some (medianOf lat)
      mean := some (meanOf lat)
      minMs := lat.min?
      maxMs := lat.max?
      jitterSq := some (if 1 < lat.length then sampleVar lat else 0)
      packetLoss := ((attempts : ℚ) - lat.length) / attempts * 100
      successRate := (lat.length : ℚ) / attempts * 100
      sampleCount := lat.length
      ok := true
      err := none }

/-- Embedding of `SpeedTester._calculate_stability_score`. -/
def calculateStabilityScore (median jitter loss : ℚ) : ℚ :=
  let latencyScore := max 0 (50 - median / 10)
  let jitterScore := max 0 (30 - jitter / 3.33)
  let lossScore := max 0 (20 - loss / 5)
  min 100 (latencyScore + jitterScore + lossScore)

/-! ## Correctness verifier (`_normalize_sni_host`, `tls_sni_verify_any`) -/

/-- The whitespace set of Python's `str.strip()`. -/
def isPySpace (c : Char) : Bool :=
  c == ' ' || c == '\t' || c == '\n' || c == '\r' ||
  c == Char.ofNat 11 || c == Char.ofNat 12

def pyStrip (s : PyStr) : PyStr :=
  ((s.dropWhile isPySpace).reverse.dropWhile isPySpace).reverse

def toLowerStr (s : PyStr) : PyStr := s.map Char.toLower

/-- Embedding of `re.sub(r"^https?://", "", h, flags=IGNORECASE)`: drop one leading
scheme if present (longest alternative first, as the regex engine does). -/
def stripScheme (s : PyStr) : PyStr :=
  if "https://".data.isPrefixOf (toLowerStr s) then s.drop 8
  else if "http://".data.isPrefixOf (toLowerStr s) then s.drop 7
  else s

/-- Embedding of `h.split(c, 1)[0]`: everything before the first occurrence of `c`. -/
def splitFirst (c : Char) (s : PyStr) : PyStr := s.takeWhile (· != c)

/-- One character of `[0-9a-fA-F:]`. -/
def hexColonChar (c : Char) : Bool :=
  c.isDigit || ('a' ≤ c && c ≤ 'f') || ('A' ≤ c && c ≤ 'F') || c == ':'

/-- Embedding of `re.match(r"^[0-9a-fA-F:]+$", h)` as a Boolean: nonempty and all
characters hex digits or colons (an IPv6-literal shape). -/
def isHexColonStr (s : PyStr) : Bool := !s.isEmpty && s.all hexColonChar

/-- Embedding of `SpeedTester._normalize_sni_host`: strip whitespace, drop scheme, cut at
path/query/fragment, drop a `:port` suffix unless the string looks like a
bare IPv6 literal, then strip and lowercase. -/
def normalizeSniHost (h : PyStr) : PyStr :=
  let h1 := pyStrip h
  if h1.isEmpty then []
  else
    let h2 := stripScheme h1
    let h3 := splitFirst '#' (splitFirst '?' (splitFirst '/' h2))
    let h4 := if h3.contains ':' && !isHexColonStr h3 then splitFirst ':' h3 else h3
    toLowerStr (pyStrip h4)

/-- The candidate-normalization prologue of `tls_sni_verify_any`: normalize
each host, drop empties, dedupe preserving first-seen order. -/
def normHosts (hosts : List PyStr) : List PyStr :=
  hosts.foldl
    (fun acc h =>
      let nh := normalizeSniHost h
      if nh.isEmpty then acc
      else if acc.contains nh then acc
      else acc ++ [nh])
    []

/-- Result of `tls_sni_verify_any`: `(ok, used_host, err)` plus the trace of
hosts on which a TLS handshake (`tls_sni_verify`) was actually performed —
the observable side effect, recorded so that "no handshake happened" is a
provable statement. -/
structure VerifyAnyResult where
  ok : Bool
  usedHost : Option PyStr
  errKind : Option ShortErr
  handshakes : List PyStr
deriving DecidableEq

/-- The candidate loop of `tls_sni_verify_any`. `verify h` is the outcome of
`tls_sni_verify` for SNI host `h` (the TLS oracle, absorbing port/timeout/
`verify_hostname`); `stop i` is the stop flag observed before handshake
number `i`. On a stop the current host is reported with error "stopped"
without a handshake; otherwise the first succeeding host wins and the last
error is reported after exhaustion. -/
def tryHostsGo (verify : PyStr → Bool × Option ShortErr) (stop : Nat → Bool) :
    List PyStr → Nat → Option PyStr → Option ShortErr → List PyStr → VerifyAnyResult
  | [], _, lastHost, lastErr, trace => ⟨false, lastHost, lastErr, trace⟩
  | h :: rest, i, _, _, trace =>
    if stop i then ⟨false, some h, some .stoppedE, trace⟩
    else
      let r := verify h
      if r.1 then ⟨true, some h, none, trace ++ [h]⟩
      else tryHostsGo verify stop rest (i + 1) (some h) r.2 (trace ++ [h])

def tlsSniVerifyAny (verify : PyStr → Bool × Option ShortErr) (stop : Nat → Bool)
    (hosts : List PyStr) (limit : Int) : VerifyAnyResult :=
  let hs := normHosts hosts
  if hs.isEmpty then ⟨true, none, none, []⟩
  else
    let lim := (max 1 limit).toNat
    tryHostsGo verify stop (hs.take lim) 0 none none []

/-! ## Single-IP evaluation (`test_one_ip_advanced`) and retry controller
(`EnhancedSpeedTester.test_with_retry`) -/

/-- Python `int(q)` for a rational: truncation toward zero. -/
def pyInt (q : ℚ) : Int := if 0 ≤ q then ⌊q⌋ else -⌊-q⌋

/-- The TLS part of the configuration (`SPEED_TEST_CONFIG["tls"]` as read by
`test_one_ip_advanced`); `timeout` is absorbed by the handshake oracle. -/
structure TlsCfg where
  enabled : Bool
  strict : Bool
  verifyHostname : Bool
  tryHostsLimit : Int
deriving DecidableEq

/-- Embedding of `short = (tls_err or "").split(":", 1)[0] if tls_err else "fail"`. -/
def shortOf (e : Option ShortErr) : ShortErr := e.getD .failE

/-- Embedding of `SpeedTester.test_one_ip_advanced` on the advanced-metrics path
(`measure_jitter=True`, the shipped default used by the orchestrator),
returning `(ms, status)`. Oracles: `probe`/`stopSampler` feed the sampler,
`handshake`/`stopTls` feed the verifier, `icmpResult` is the outcome of
`icmp_ping_once`, `stopEntry`/`stopIcmp` are the two direct `_should_stop`
polls. The metrics dictionary is returned by the source as diagnostics and
is reproducible as `tcpAdvancedMetrics attempts probe stopSampler`. -/
def testOneIpAdvanced (tls : TlsCfg) (icmpFallback : Bool) (attempts : Nat)
    (probe : Nat → Option ℚ × Option PyStr)
    (stopEntry : Bool) (stopSampler : Nat → Bool) (stopTls : Nat → Bool) (stopIcmp : Bool)
    (handshake : PyStr → Bool × Option ShortErr)
    (icmpResult : Option Nat)
    (sniHosts : List PyStr) : Int × Status :=
  if stopEntry then (9999, .stopped)
  else
    let m := tcpAdvancedMetrics attempts probe stopSampler
    if m.ok && m.median.isSome then
      let ms : Int := max 1 (pyInt (m.median.getD 0))
      if tls.enabled && !sniHosts.isEmpty then
        let v := tlsSniVerifyAny handshake stopTls sniHosts tls.tryHostsLimit
        if v.ok then (ms, .availableTLS)
        else
          let short := shortOf v.errKind
          if tls.strict then (9999, .failedSNI short)
          else (ms, .availableTcpTlsFailed short)
      else (ms, .available)
    else
      if icmpFallback && !stopIcmp then
        match icmpResult with
        | some v => ((v : Int), .availableICMP)
        | none => (9999, .failed)
      else (9999, .failed)

/-- The `metadata` dictionary of `test_with_retry`: attempt and retry counters plus the
per-failure diagnostics (`f"第{retry+1}次: {status}"`, recorded here as the
pair of attempt number and status). On a terminal available/stopped result
the source additionally merges the metrics dictionary into the metadata;
that merge carries no extra information beyond `tcpAdvancedMetrics`. -/
structure RetryMeta where
  attempts : Nat
  retryCount : Nat
  errors : List (Nat × Status)
deriving DecidableEq

/-- The retry loop of `test_with_retry`: `eval retry` is the outcome of the
`retry`-th call of `test_one_ip_advanced` (the network may answer
differently each time); backoff sleeps have no observable effect here.
`fuel` starts at `max_retries + 1` (the Python `range(max_retries + 1)`). -/
def retryGo (eval : Nat → Int × Status) (maxRetries : Nat) :
    Nat → Nat → RetryMeta → Int × Status × RetryMeta
  | 0, _, meta => (9999, .failedRetry (maxRetries + 1), meta)
  | fuel + 1, retry, meta =>
    let meta1 : RetryMeta := { meta with attempts := meta.attempts + 1 }
    let r := eval retry
    if startsAvail r.2 || statusEqStopped r.2 then (r.1, r.2, meta1)
    else
      retryGo eval maxRetries fuel (retry + 1)
        { meta1 with
          errors := meta1.errors ++ [(retry + 1, r.2)]
          retryCount := meta1.retryCount + 1 }

def testWithRetry (maxRetries : Nat) (eval : Nat → Int × Status) :
    Int × Status × RetryMeta :=
  retryGo eval maxRetries (maxRetries + 1) 0 ⟨0, 0, []⟩

/-- The error log produced by `fuel` consecutive failing attempts starting
at attempt index `retry` (specification device for reasoning about
`retryGo`). -/
def errList (eval : Nat → Int × Status) : Nat → Nat → List (Nat × Status)
  | _, 0 => []
  | retry, fuel + 1 => (retry + 1, (eval retry).2) :: errList eval (retry + 1) fuel

/-- Embedding of `max_retries = retry_config.get("max_retries", 2) if
retry_config.get("enabled", True) else 0`. -/
def effectiveMaxRetries (enabled : Bool) (maxRetries : Nat) : Nat :=
  if enabled then maxRetries else 0

/-! ## ICMP fallback prober (`icmp_ping_once`) -/

/-- Embedding of `SpeedTester.icmp_ping_once`. Off Windows it returns `None` before doing
anything. On Windows the subprocess output parsing is abstracted:
`parsedTime` is the integer captured by the `(?:time|时间)[=<]\s*(\d+)\s*ms`
search (if any), `reportedLt1` whether the `<1ms` pattern matched instead;
a subprocess failure is `parsedTime = none, reportedLt1 = false`. -/
def icmpPingOnce (isWin32 : Bool) (parsedTime : Option Nat) (reportedLt1 : Bool) :
    Option Nat :=
  if !isWin32 then none
  else
    match parsedTime with
    | some v => some (max 1 v)
    | none => if reportedLt1 then some 1 else none

/-! ## Shipped configuration (`config.py` `SPEED_TEST_CONFIG["tcp"]`) and the
lookups of `test_with_retry` -/

/-- The `tcp` section as a partial dictionary: `none` means the key is
absent. -/
structure TcpCfgOpt where
  port : Option Nat
  attempts : Option Nat
  timeout : Option ℚ
  interval : Option ℚ
deriving DecidableEq

/-- The `tcp` section shipped in `config.py`. -/
def shippedTcp : TcpCfgOpt :=
  { port := some 443, attempts := some 10, timeout := some 2, interval := some 0.02 }

/-- Embedding of `tcp_config.get("port", 443)` in `test_with_retry`. -/
def cfgPort (c : TcpCfgOpt) : Nat := c.port.getD 443

/-- Embedding of `tcp_config.get("attempts", 5)` in `test_with_retry`. -/
def cfgAttempts (c : TcpCfgOpt) : Nat := c.attempts.getD 5

/-- Embedding of `tcp_config.get("timeout", 2.0)` in `test_with_retry`. -/
def cfgTimeout (c : TcpCfgOpt) : ℚ := c.timeout.getD 2

/-! ## Ranking & selection (`_rank_key_for_result_row`,
`write_best_ip_to_hosts`) -/

/-- A result row as stored in `self.test_results`
(`(ip, domain, int(delay), str(status), selected, float(jitter),
float(stability))`, always 7 fields — see `_add_test_results_batch`). -/
structure Row where
  ip : String
  domain : String
  ms : Int
  status : Status
  selected : Bool
  jitter : ℚ
  stability : ℚ
deriving DecidableEq

/-- Embedding of `_rank_key_for_result_row`: the `(score, float(ms))` pair, compared
lexicographically (Python tuple order), lower is better. The guards
`jitter and jitter > 0` / `stability and stability > 0` are Python
truthiness followed by a comparison: the penalty applies exactly when the
value is nonzero and positive. -/
def rankKey (r : Row) : ℚ × ℚ :=
  let ms : ℚ := (r.ms : ℚ)
  let score := ms
  let score := if r.jitter ≠ 0 ∧ 0 < r.jitter then score + r.jitter * 1.5 else score
  let score := if r.stability ≠ 0 ∧ 0 < r.stability then score + (100 - r.stability) * 2.0 else score
  let score := if hasTLSTag r.status then score - 15.0 else score
  (score, ms)

/-- Strict lexicographic order on rank keys: Python's `<` on the 2-tuples. -/
def rkLt (a b : ℚ × ℚ) : Prop := a.1 < b.1 ∨ (a.1 = b.1 ∧ a.2 < b.2)

instance (a b : ℚ × ℚ) : Decidable (rkLt a b) := by
  unfold rkLt; exact inferInstance

theorem rkLt_irrefl (a : ℚ × ℚ) : ¬ rkLt a a := by
  simp [rkLt]

theorem rkLt_trans {a b c : ℚ × ℚ} (h1 : rkLt a b) (h2 : rkLt b c) : rkLt a c := by
  rcases h1 with h1 | ⟨h1e, h1s⟩ <;> rcases h2 with h2 | ⟨h2e, h2s⟩
  · exact Or.inl (lt_trans h1 h2)
  · exact Or.inl (h2e ▸ h1)
  · exact Or.inl (h1e ▸ h2)
  · exact Or.inr ⟨h1e.trans h2e, lt_trans h1s h2s⟩

/-- A value of `best_any` / `best_tls`: `(ip, ms, rank_key)`. -/
abbrev Entry := String × Int × (ℚ × ℚ)

def entryOf (r : Row) : Entry := (r.ip, r.ms, rankKey r)

/-- Embedding of `if (d not in best) or (rk < best[d][2]): best[d] = (ip, ms, rk)`. -/
def updEntry (e : Entry) : Option Entry → Option Entry
  | none => some e
  | some o => if rkLt e.2.2 o.2.2 then some e else some o

/-- One loop iteration of `write_best_ip_to_hosts` for one of the two
dictionaries: update the entry at the row's domain when the row passes the
dictionary's status test `p`. -/
def selUpd (p : Row → Bool) (m : String → Option Entry) (r : Row) :
    String → Option Entry :=
  if p r then fun d => if d = r.domain then updEntry (entryOf r) (m d) else m d
  else m

/-- Status test for `best_any`: `st_s.startswith("可用")`. -/
def pAvail (r : Row) : Bool := startsAvail r.status

/-- Status test for `best_tls`: inside the `startswith("可用")` guard,
additionally `"(TLS)" in st_s`. -/
def pTls (r : Row) : Bool := startsAvail r.status && hasTLSTag r.status

/-- The `best_any` dictionary after the row loop (the source fills both
dictionaries in a single traversal; each is an independent fold). -/
def bestAnyMap (rows : List Row) : String → Option Entry :=
  rows.foldl (selUpd pAvail) fun _ => none

/-- The `best_tls` dictionary after the row loop. -/
def bestTlsMap (rows : List Row) : String → Option Entry :=
  rows.foldl (selUpd pTls) fun _ => none

/-- The merged `best` dictionary:
`for d, v in best_any.items(): best[d] = best_tls.get(d, v)`. -/
def bestSelection (rows : List Row) (d : String) : Option Entry :=
  match bestAnyMap rows d with
  | none => none
  | some v => some ((bestTlsMap rows d).getD v)

/-- Invariant of the dictionary fold: every stored entry belongs to a
processed row passing `p` with minimal rank key, and a domain is absent
exactly when no processed row for it passes `p`. -/
def entryInv (p : Row → Bool) (rows : List Row) (m : String → Option Entry) : Prop :=
  ∀ d : String,
    (m d = none → ∀ r ∈ rows, r.domain = d → p r = false) ∧
    (∀ e, m d = some e →
      ∃ r ∈ rows, r.domain = d ∧ p r = true ∧ e = entryOf r ∧
        ∀ r2 ∈ rows, r2.domain = d → p r2 = true → ¬ rkLt (rankKey r2) (rankKey r))

theorem selUpd_inv {p : Row → Bool} {rows : List Row} {m : String → Option Entry}
    (h : entryInv p rows m) (r : Row) :
    entryInv p (rows ++ [r]) (selUpd p m r) := by
  intro d
  obtain ⟨hnone, hsome⟩ := h d
  by_cases hp : p r = true
  · simp only [selUpd, hp, if_true]
    by_cases hd : d = r.domain
    · subst hd
      simp only [if_pos rfl]
      cases ho : m r.domain with
      | none =>
        simp only [if_true]
        constructor
        · intro habs; exact absurd habs (by simp [updEntry])
        · intro e he
          have he2 : e = entryOf r := by simpa [updEntry] using he.symm
          refine ⟨r, by simp, rfl, hp, he2, ?_⟩
          intro r2 hr2 hdom hp2
          rcases List.mem_append.mp hr2 with h2 | h2
          · exact absurd hp2 (by simp [hnone ho r2 h2 hdom])
          · simp only [List.mem_singleton] at h2
            subst h2; exact rkLt_irrefl _
      | some o =>
        simp only [if_true]
        obtain ⟨r0, hr0mem, hr0dom, hr0p, hr0e, hr0min⟩ := hsome o ho
        by_cases hlt : rkLt (entryOf r).2.2 o.2.2
        · rw [show updEntry (entryOf r) (some o) = some (entryOf r) by
            simp [updEntry, hlt]]
          constructor
          · intro habs; exact Option.noConfusion habs
          · intro e he
            have he2 : e = entryOf r := (Option.some.inj he).symm
            refine ⟨r, by simp, rfl, hp, he2, ?_⟩
            intro r2 hr2 hdom hp2
            rcases List.mem_append.mp hr2 with h2 | h2
            · intro habs
              have hold := hr0min r2 h2 hdom hp2
              have hlt2 : rkLt (rankKey r) (rankKey r0) := by
                have : (entryOf r).2.2 = rankKey r := rfl
                rw [this, hr0e] at hlt
                exact hlt
              exact hold (rkLt_trans habs hlt2)
            · simp only [List.mem_singleton] at h2
              subst h2; exact rkLt_irrefl _
        · rw [show updEntry (entryOf r) (some o) = some o by
            simp [updEntry, hlt]]
          constructor
          · intro habs; exact Option.noConfusion habs
          · intro e he
            have he2 : e = o := (Option.some.inj he).symm
            refine ⟨r0, List.mem_append.mpr (Or.inl hr0mem), hr0dom, hr0p,
              he2.trans hr0e, ?_⟩
            intro r2 hr2 hdom hp2
            rcases List.mem_append.mp hr2 with h2 | h2
            · exact hr0min r2 h2 hdom hp2
            · simp only [List.mem_singleton] at h2
              subst h2
              have : (entryOf r2).2.2 = rankKey r2 := rfl
              rw [this, hr0e] at hlt
              exact hlt
    · simp only [if_neg hd]
      constructor
      · intro hmd r2 hr2 hdom
        rcases List.mem_append.mp hr2 with h2 | h2
        · exact hnone hmd r2 h2 hdom
        · simp only [List.mem_singleton] at h2
          subst h2; exact absurd hdom.symm hd
      · intro e he
        obtain ⟨r0, hr0mem, hr0dom, hr0p, hr0e, hr0min⟩ := hsome e he
        refine ⟨r0, List.mem_append.mpr (Or.inl hr0mem), hr0dom, hr0p, hr0e, ?_⟩
        intro r2 hr2 hdom hp2
        rcases List.mem_append.mp hr2 with h2 | h2
        · exact hr0min r2 h2 hdom hp2
        · simp only [List.mem_singleton] at h2
          subst h2; exact absurd hdom.symm hd
  · simp only [selUpd, hp, if_false]
    constructor
    · intro hmd r2 hr2 hdom
      rcases List.mem_append.mp hr2 with h2 | h2
      · exact hnone hmd r2 h2 hdom
      · simp only [List.mem_singleton] at h2
        subst h2; simpa using hp
    · intro e he
      obtain ⟨r0, hr0mem, hr0dom, hr0p, hr0e, hr0min⟩ := hsome e he
      refine ⟨r0, List.mem_append.mpr (Or.inl hr0mem), hr0dom, hr0p, hr0e, ?_⟩
      intro r2 hr2 hdom hp2
      rcases List.mem_append.mp hr2 with h2 | h2
      · exact hr0min r2 h2 hdom hp2
      · simp only [List.mem_singleton] at h2
        subst h2; simp_all

theorem foldl_entryInv (p : Row → Bool) :
    ∀ (l : List Row) (m : String → Option Entry) (rows : List Row),
      entryInv p rows m → entryInv p (rows ++ l) (List.foldl (selUpd p) m l) := by
  intro l
  induction l with
  | nil => intro m rows h; simpa using h
  | cons r rest ih =>
    intro m rows h
    have step := selUpd_inv h r
    have := ih (selUpd p m r) (rows ++ [r]) step
    simpa [List.append_assoc] using this

theorem entryInv_nil (p : Row → Bool) : entryInv p [] fun _ => none := by
  intro d
  constructor
  · intro _ r hr; simp at hr
  · intro e he; simp at he

theorem bestAnyMap_inv (rows : List Row) : entryInv pAvail rows (bestAnyMap rows) := by
  have := foldl_entryInv pAvail rows (fun _ => none) [] (entryInv_nil pAvail)
  simpa [bestAnyMap] using this

theorem bestTlsMap_inv (rows : List Row) : entryInv pTls rows (bestTlsMap rows) := by
  have := foldl_entryInv pTls rows (fun _ => none) [] (entryInv_nil pTls)
  simpa [bestTlsMap] using this

/-- Among statuses that pass the `startswith("可用")` test, only
`可用(TLS)` contains the substring `(TLS)`. -/
theorem avail_and_tls_is_availableTLS (st : Status)
    (h1 : startsAvail st = true) (h2 : hasTLSTag st = true) :
    st = Status.availableTLS := by
  cases st with
  | available => exact absurd h2 (by decide)
  | availableTLS => rfl
  | availableTcpTlsFailed e => cases e <;> exact absurd h2 (by decide)
  | availableICMP => exact absurd h2 (by decide)
  | failed => exact absurd h1 (by decide)
  | failedSNI e => exact Bool.noConfusion h1
  | failedRetry n => exact Bool.noConfusion h1
  | failedExc m => exact Bool.noConfusion h1
  | stopped => exact absurd h1 (by decide)

/-- Closed form of the rank key: each penalty/bonus is an `if` gated exactly
on strict positivity (resp. the TLS tag). -/
theorem rankKey_closed (r : Row) :
    rankKey r =
      ((r.ms : ℚ)
        + (if 0 < r.jitter then r.jitter * 1.5 else 0)
        + (if 0 < r.stability then (100 - r.stability) * 2.0 else 0)
        - (if hasTLSTag r.status then 15.0 else 0),
       (r.ms : ℚ)) := by
  have hjit : (r.jitter ≠ 0 ∧ 0 < r.jitter) ↔ (0 < r.jitter) :=
    ⟨And.right, fun h => ⟨h.ne', h⟩⟩
  have hsta : (r.stability ≠ 0 ∧ 0 < r.stability) ↔ (0 < r.stability) :=
    ⟨And.right, fun h => ⟨h.ne', h⟩⟩
  unfold rankKey
  dsimp only
  rw [if_congr hjit rfl rfl, if_congr hsta rfl rfl]
  simp only [Prod.mk.injEq]
  refine ⟨?_, trivial⟩
  split_ifs <;> ring

/-- All-fail runs of the retry loop: `fuel` failed attempts are consumed,
each one adding to the attempt counter, the retry counter and the error
log. -/
theorem retryGo_all_fail (eval : Nat → Int × Status) (m : Nat)
    (h : ∀ i, startsAvail (eval i).2 = false ∧ statusEqStopped (eval i).2 = false) :
    ∀ (fuel retry : Nat) (meta : RetryMeta),
      retryGo eval m fuel retry meta =
        (9999, Status.failedRetry (m + 1),
         ⟨meta.attempts + fuel, meta.retryCount + fuel,
          meta.errors ++ errList eval retry fuel⟩) := by
  intro fuel
  induction fuel with
  | zero =>
    intro retry meta
    simp [retryGo, errList]
  | succ f ih =>
    intro retry meta
    rw [retryGo]
    simp only [(h retry).1, (h retry).2, Bool.or_self, Bool.false_eq_true, if_false]
    rw [ih]
    simp only [errList, Prod.mk.injEq, RetryMeta.mk.injEq]
    refine ⟨trivial, trivial, ?_, ?_, ?_⟩
    · omega
    · omega
    · simp

/-! ## C4 — stability score: formula, range, monotonicity -/

/-- C4: for every median/jitter/loss, `_calculate_stability_score` equals
`min(100, max(0, 50 − median/10) + max(0, 30 − jitter/3.33) +
max(0, 20 − loss/5))`, lies in `[0, 100]`, and is monotonically
non-increasing in jitter and in packet loss. -/
theorem stability_score_spec (med j l j2 l2 : ℚ) (hj : j ≤ j2) (hl : l ≤ l2) :
    calculateStabilityScore med j l =
      min 100 (max 0 (50 - med / 10) + max 0 (30 - j / 3.33) + max 0 (20 - l / 5)) ∧
    0 ≤ calculateStabilityScore med j l ∧
    calculateStabilityScore med j l ≤ 100 ∧
    calculateStabilityScore med j2 l ≤ calculateStabilityScore med j l ∧
    calculateStabilityScore med j l2 ≤ calculateStabilityScore med j l := by
  refine ⟨rfl, ?_, ?_, ?_, ?_⟩
  · unfold calculateStabilityScore
    refine le_min (by norm_num) ?_
    have h1 : (0 : ℚ) ≤ max 0 (50 - med / 10) := le_max_left _ _
    have h2 : (0 : ℚ) ≤ max 0 (30 - j / 3.33) := le_max_left _ _
    have h3 : (0 : ℚ) ≤ max 0 (20 - l / 5) := le_max_left _ _
    linarith
  · exact min_le_left _ _
  · unfold calculateStabilityScore
    refine min_le_min le_rfl ?_
    have hd : j / 3.33 ≤ j2 / 3.33 :=
      (div_le_div_iff_of_pos_right (show (0 : ℚ) < 3.33 by norm_num)).mpr hj
    have : max 0 (30 - j2 / 3.33) ≤ max 0 (30 - j / 3.33) :=
      max_le_max le_rfl (by linarith)
    linarith
  · unfold calculateStabilityScore
    refine min_le_min le_rfl ?_
    have hd : l / 5 ≤ l2 / 5 :=
      (div_le_div_iff_of_pos_right (show (0 : ℚ) < 5 by norm_num)).mpr hl
    have : max 0 (20 - l2 / 5) ≤ max 0 (20 - l / 5) :=
      max_le_max le_rfl (by linarith)
    linarith

/-- Witness for C4 at median 45 ms, jitter 3 → 5, loss 0 → 10. -/
theorem stability_score_spec_witness :
    ((3 : ℚ) ≤ 5 ∧ (0 : ℚ) ≤ 10) ∧
    calculateStabilityScore 45 5 0 ≤ calculateStabilityScore 45 3 0 ∧
    calculateStabilityScore 45 3 10 ≤ calculateStabilityScore 45 3 0 := by
  have h := stability_score_spec 45 3 0 5 10 (by norm_num) (by norm_num)
  exact ⟨⟨by norm_num, by norm_num⟩, h.2.2.2.1, h.2.2.2.2⟩

/-! ## C5 — verifier skip on empty candidate list -/

/-- Helper: when every candidate normalizes to the empty string, the
normalize/dedupe prologue keeps nothing. -/
theorem normHosts_empty_of_all_empty (hosts : List PyStr)
    (h : ∀ x ∈ hosts, normalizeSniHost x = []) : normHosts hosts = [] := by
  have main : ∀ (l : List PyStr), (∀ x ∈ l, normalizeSniHost x = []) →
      ∀ acc, l.foldl
        (fun acc h =>
          let nh := normalizeSniHost h
          if nh.isEmpty then acc
          else if acc.contains nh then acc
          else acc ++ [nh]) acc = acc := by
    intro l
    induction l with
    | nil => intro _ acc; rfl
    | cons x rest ih =>
      intro hall acc
      have hx : normalizeSniHost x = [] := hall x (List.mem_cons_self _ _)
      simp only [List.foldl_cons, hx, List.isEmpty_nil, if_true]
      exact ih (fun y hy => hall y (List.mem_cons_of_mem _ hy)) acc
  unfold normHosts
  exact main hosts h []

/-- C5: with a candidate list that is empty or normalizes away entirely,
`tls_sni_verify_any` returns `(True, None, None)` and performs no
handshake, for every TLS oracle, stop schedule and limit. -/
theorem verify_any_empty_skip (verify : PyStr → Bool × Option ShortErr)
    (stop : Nat → Bool) (hosts : List PyStr) (limit : Int)
    (h : ∀ x ∈ hosts, normalizeSniHost x = []) :
    tlsSniVerifyAny verify stop hosts limit =
      ⟨true, none, none, []⟩ := by
  unfold tlsSniVerifyAny
  rw [normHosts_empty_of_all_empty hosts h]
  rfl

/-- Witness for C5: the empty string, pure whitespace and a bare scheme all
normalize to the empty string, and verification is skipped. -/
theorem verify_any_empty_skip_witness :
    (∀ x ∈ [([] : PyStr), " ".data, "https://".data], normalizeSniHost x = []) ∧
    tlsSniVerifyAny (fun _ => (false, some .certVerify)) (fun _ => false)
      [([] : PyStr), " ".data, "https://".data] 3 = ⟨true, none, none, []⟩ :=
  ⟨by decide,
   verify_any_empty_skip (fun _ => (false, some .certVerify)) (fun _ => false)
     [[], " ".data, "https://".data] 3 (by decide)⟩

/-! ## C8 — shipped TCP configuration defaults -/

/-- C8 counterexample: the shipped `SPEED_TEST_CONFIG["tcp"]["attempts"]`
is 10, so the value the retry controller reads is 10, not 5. -/
theorem shipped_attempts_not_five :
    shippedTcp.attempts = some 10 ∧ cfgAttempts shippedTcp ≠ 5 := by
  decide

/-- C8 (amended): the configuration recognizes `tcp.port`, `tcp.attempts`
and `tcp.timeout`; `test_with_retry` falls back to 443 / 5 / 2.0 when a key
is absent, and the shipped configuration sets 443 / **10** / 2.0. -/
theorem shipped_tcp_defaults :
    cfgPort shippedTcp = 443 ∧ cfgAttempts shippedTcp = 10 ∧
    cfgTimeout shippedTcp = 2 ∧
    cfgPort ⟨none, none, none, none⟩ = 443 ∧
    cfgAttempts ⟨none, none, none, none⟩ = 5 ∧
    cfgTimeout ⟨none, none, none, none⟩ = 2 := by
  refine ⟨rfl, rfl, rfl, rfl, rfl, rfl⟩

/-! ## C9 — positivity-gated penalties in the rank key -/

/-- C9: the jitter and stability penalties apply only when the respective
value is strictly positive; a row whose measured stability is exactly 0
gets no stability penalty and therefore strictly outranks an otherwise
identical row with any measured stability in (0, 100). -/
theorem rank_key_positivity_gates (r : Row) :
    rankKey r =
      ((r.ms : ℚ)
        + (if 0 < r.jitter then r.jitter * 1.5 else 0)
        + (if 0 < r.stability then (100 - r.stability) * 2.0 else 0)
        - (if hasTLSTag r.status then 15.0 else 0),
       (r.ms : ℚ)) ∧
    (r.stability = 0 → ∀ s2 : ℚ, 0 < s2 → s2 < 100 →
      rkLt (rankKey r) (rankKey { r with stability := s2 })) := by
  refine ⟨rankKey_closed r, ?_⟩
  intro h0 s2 hs2 h100
  rw [rkLt, rankKey_closed, rankKey_closed]
  left
  simp only [h0]
  rw [if_neg (lt_irrefl (0 : ℚ)), if_pos hs2]
  have : (0 : ℚ) < (100 - s2) * 2.0 := by nlinarith
  dsimp only
  linarith

/-- Witness for C9: a row with measured stability 0 outranks the same row
with stability 50. -/
theorem rank_key_positivity_gates_witness :
    ((⟨"1.2.3.4", "github.com", 40, Status.available, false, 0, 0⟩ : Row).stability = 0 ∧
      (0 : ℚ) < 50 ∧ (50 : ℚ) < 100) ∧
    rkLt (rankKey ⟨"1.2.3.4", "github.com", 40, Status.available, false, 0, 0⟩)
      (rankKey ⟨"1.2.3.4", "github.com", 40, Status.available, false, 0, 50⟩) :=
  ⟨⟨rfl, by norm_num, by norm_num⟩,
   (rank_key_positivity_gates
      ⟨"1.2.3.4", "github.com", 40, Status.available, false, 0, 0⟩).2
     rfl 50 (by norm_num) (by norm_num)⟩

/-! ## C10 — ICMP prober off Windows and minimum latency -/

/-- C10: off Windows `icmp_ping_once` is constantly `None` (so the fallback
can never produce `可用(ICMP)` there and a TCP-failed IP stays `失败`), and
whenever it does return a latency, that latency is at least 1 ms. -/
theorem icmp_off_windows_spec :
    (∀ parsed lt1, icmpPingOnce false parsed lt1 = none) ∧
    (∀ w parsed lt1 v, icmpPingOnce w parsed lt1 = some v → 1 ≤ v) ∧
    (∀ (tls : TlsCfg) (icmpFb : Bool) (attempts : Nat)
       (probe : Nat → Option ℚ × Option PyStr) (stopS stopT : Nat → Bool)
       (stopI : Bool) (handshake : PyStr → Bool × Option ShortErr)
       (hosts : List PyStr) (parsed : Option Nat) (lt1 : Bool),
       (tcpAdvancedMetrics attempts probe stopS).ok = false →
       testOneIpAdvanced tls icmpFb attempts probe false stopS stopT stopI handshake
         (icmpPingOnce false parsed lt1) hosts = (9999, Status.failed)) := by
  refine ⟨fun parsed lt1 => rfl, ?_, ?_⟩
  · intro w parsed lt1 v h
    cases w with
    | false => exact Option.noConfusion h
    | true =>
      cases parsed with
      | some x =>
        simp only [icmpPingOnce, Bool.not_true, Bool.false_eq_true, if_false] at h
        have := Option.some.inj h
        omega
      | none =>
        simp only [icmpPingOnce, Bool.not_true, Bool.false_eq_true, if_false] at h
        cases lt1 with
        | false => simp at h
        | true =>
          have := Option.some.inj (by simpa using h)
          omega
  · intro tls icmpFb attempts probe stopS stopT stopI handshake hosts parsed lt1 hok
    unfold testOneIpAdvanced
    rw [if_neg (by exact Bool.false_ne_true)]
    dsimp only
    rw [hok]
    simp only [Bool.false_and, Bool.false_eq_true, if_false]
    cases hb : icmpFb && !stopI <;> simp [icmpPingOnce]

/-- Witness for C10: with an all-failing TCP probe and a (hypothetical)
parsed ping time of 80 ms, the non-Windows evaluation still reports 失败. -/
theorem icmp_off_windows_spec_witness :
    ((tcpAdvancedMetrics 5 (fun _ => (none, some "timeout".data)) (fun _ => false)).ok
      = false) ∧
    testOneIpAdvanced ⟨true, false, false, 3⟩ true 5
      (fun _ => (none, some "timeout".data)) false (fun _ => false) (fun _ => false)
      false (fun _ => (true, none)) (icmpPingOnce false (some 80) false)
      ["example.com".data] = (9999, Status.failed) :=
  ⟨by decide,
   icmp_off_windows_spec.2.2 ⟨true, false, false, 3⟩ true 5
     (fun _ => (none, some "timeout".data)) (fun _ => false) (fun _ => false)
     false (fun _ => (true, none)) ["example.com".data] (some 80) false (by decide)⟩

/-! ## C2 — retry exhaustion: attempts, status, sentinel, retry counter -/

/-- C2 counterexample: with retry enabled, `max_retries = 2` and every
evaluation failing, `metadata["retry_count"]` ends at 3, not 2 — the source
increments it on every failed attempt, the initial one included. -/
theorem retry_count_claim_false :
    (testWithRetry (effectiveMaxRetries true 2)
        fun _ => (9999, Status.failed)).2.2.retryCount ≠ 2 := by
  decide

/-- C2 (amended): with retry enabled and `max_retries = 2`, an all-failing
evaluation performs exactly 3 attempts (1 initial + 2 retries), returns the
sentinel delay 9999 with the terminal失败 status, and the metadata records
`attempts = 3` and `retry_count = 3` (one increment per failed attempt,
including the initial one). -/
theorem retry_exhaustion_counts (eval : Nat → Int × Status)
    (h : ∀ i, startsAvail (eval i).2 = false ∧ statusEqStopped (eval i).2 = false) :
    testWithRetry (effectiveMaxRetries true 2) eval =
      (9999, Status.failedRetry 3,
       ⟨3, 3, [(1, (eval 0).2), (2, (eval 1).2), (3, (eval 2).2)]⟩) := by
  have hm : effectiveMaxRetries true 2 = 2 := rfl
  rw [hm]
  show retryGo eval 2 (2 + 1) 0 ⟨0, 0, []⟩ = _
  rw [retryGo_all_fail eval 2 h (2 + 1) 0 ⟨0, 0, []⟩]
  rfl

/-- Witness for C2 (amended), with every attempt ending in a plain
connection failure. -/
theorem retry_exhaustion_counts_witness :
    (∀ i : Nat, startsAvail ((fun _ => ((9999 : Int), Status.failed)) i).2 = false ∧
      statusEqStopped ((fun _ => ((9999 : Int), Status.failed)) i).2 = false) ∧
    testWithRetry (effectiveMaxRetries true 2) (fun _ => ((9999 : Int), Status.failed)) =
      (9999, Status.failedRetry 3,
       ⟨3, 3, [(1, Status.failed), (2, Status.failed), (3, Status.failed)]⟩) :=
  ⟨fun _ => ⟨rfl, rfl⟩,
   retry_exhaustion_counts (fun _ => ((9999 : Int), Status.failed))
     fun _ => ⟨rfl, rfl⟩⟩

/-! ## C6 — TCP success with failed TLS verification: lenient vs strict -/

/-- C6: when TCP sampling succeeds but TLS verification of the tried
candidates fails, non-strict mode reports `可用(TCP,TLS失败:…)` with the
measured delay and the retry controller stops after this single attempt;
strict mode reports `失败(SNI:…)` with the sentinel 9999 and the retry
controller keeps retrying (exhausting all 3 attempts under the default
`max_retries = 2`). -/
theorem tls_fail_policy (vh : Bool) (lim : Int) (icmpFb : Bool) (attempts : Nat)
    (probe : Nat → Option ℚ × Option PyStr) (stopS stopT : Nat → Bool) (stopI : Bool)
    (handshake : PyStr → Bool × Option ShortErr) (icmpRes : Option Nat)
    (sniHosts : List PyStr) (med : ℚ)
    (hok : (tcpAdvancedMetrics attempts probe stopS).ok = true)
    (hmed : (tcpAdvancedMetrics attempts probe stopS).median = some med)
    (hne : sniHosts.isEmpty = false)
    (hv : (tlsSniVerifyAny handshake stopT sniHosts lim).ok = false) :
    (testOneIpAdvanced ⟨true, false, vh, lim⟩ icmpFb attempts probe false stopS stopT
        stopI handshake icmpRes sniHosts =
      (max 1 (pyInt med),
       Status.availableTcpTlsFailed
         (shortOf (tlsSniVerifyAny handshake stopT sniHosts lim).errKind))) ∧
    startsAvail (Status.availableTcpTlsFailed
      (shortOf (tlsSniVerifyAny handshake stopT sniHosts lim).errKind)) = true ∧
    (∀ mr : Nat,
      (testWithRetry mr fun _ =>
        (max 1 (pyInt med),
         Status.availableTcpTlsFailed
           (shortOf (tlsSniVerifyAny handshake stopT sniHosts lim).errKind))).2.2.attempts
        = 1) ∧
    (testOneIpAdvanced ⟨true, true, vh, lim⟩ icmpFb attempts probe false stopS stopT
        stopI handshake icmpRes sniHosts =
      (9999,
       Status.failedSNI
         (shortOf (tlsSniVerifyAny handshake stopT sniHosts lim).errKind))) ∧
    startsAvail (Status.failedSNI
      (shortOf (tlsSniVerifyAny handshake stopT sniHosts lim).errKind)) = false ∧
    (testWithRetry 2 fun _ =>
      (9999,
       Status.failedSNI
         (shortOf (tlsSniVerifyAny handshake stopT sniHosts lim).errKind))).2.2.attempts
      = 3 := by
  refine ⟨?_, rfl, ?_, ?_, rfl, ?_⟩
  · unfold testOneIpAdvanced
    rw [if_neg Bool.false_ne_true]
    dsimp only
    rw [hok, hmed]
    simp [hne, hv]
  · intro mr
    show (retryGo _ mr (mr + 1) 0 ⟨0, 0, []⟩).2.2.attempts = 1
    rw [retryGo]
    dsimp only
    rw [if_pos (by rfl)]
  · unfold testOneIpAdvanced
    rw [if_neg Bool.false_ne_true]
    dsimp only
    rw [hok, hmed]
    simp [hne, hv]
  · have hall : ∀ i : Nat,
        startsAvail ((fun _ : Nat => ((9999 : Int),
          Status.failedSNI
            (shortOf (tlsSniVerifyAny handshake stopT sniHosts lim).errKind))) i).2
          = false ∧
        statusEqStopped ((fun _ : Nat => ((9999 : Int),
          Status.failedSNI
            (shortOf (tlsSniVerifyAny handshake stopT sniHosts lim).errKind))) i).2
          = false := fun _ => ⟨rfl, rfl⟩
    show (retryGo (fun _ : Nat => ((9999 : Int),
      Status.failedSNI
        (shortOf (tlsSniVerifyAny handshake stopT sniHosts lim).errKind)))
      2 (2 + 1) 0 ⟨0, 0, []⟩).2.2.attempts = 3
    rw [retryGo_all_fail _ 2 hall (2 + 1) 0 ⟨0, 0, []⟩]

/-- Witness for C6: five clean 45 ms TCP samples, one candidate hostname
whose handshake fails with a certificate error. -/
theorem tls_fail_policy_witness :
    ((tcpAdvancedMetrics 5 (fun _ => (some 45, none)) (fun _ => false)).ok = true ∧
     (tcpAdvancedMetrics 5 (fun _ => (some 45, none)) (fun _ => false)).median = some 45 ∧
     (["github.com".data] : List PyStr).isEmpty = false ∧
     (tlsSniVerifyAny (fun _ => (false, some .certVerify)) (fun _ => false)
        ["github.com".data] 3).ok = false) ∧
    testOneIpAdvanced ⟨true, false, false, 3⟩ true 5 (fun _ => (some 45, none)) false
      (fun _ => false) (fun _ => false) false (fun _ => (false, some .certVerify))
      none ["github.com".data] =
      (max 1 (pyInt 45),
       Status.availableTcpTlsFailed
         (shortOf (tlsSniVerifyAny (fun _ => (false, some .certVerify)) (fun _ => false)
            ["github.com".data] 3).errKind)) ∧
    (testWithRetry 2 fun _ =>
      (9999,
       Status.failedSNI
         (shortOf (tlsSniVerifyAny (fun _ => (false, some .certVerify)) (fun _ => false)
            ["github.com".data] 3).errKind))).2.2.attempts = 3 := by
  have h := tls_fail_policy false 3 true 5 (fun _ => (some 45, none)) (fun _ => false)
    (fun _ => false) false (fun _ => (false, some .certVerify)) none
    ["github.com".data] 45 (by decide) (by decide) (by decide) (by decide)
  exact ⟨⟨by decide, by decide, by decide, by decide⟩, h.1, h.2.2.2.2.2⟩

/-! ## C7 — sampler keeps partial samples on cancellation -/

/-- Helper: with a stop flag that turns on from attempt `k` onwards, the
attempt loop gathers exactly the successes of attempts
`i, i+1, …, i + min (k - i) fuel - 1`. -/
theorem attemptLoop_stop_threshold (probe : Nat → Option ℚ × Option PyStr) (k : Nat) :
    ∀ (fuel i : Nat) (acc : List ℚ × Option PyStr),
      (attemptLoop probe (fun j => decide (k ≤ j)) i fuel acc).1 =
        acc.1 ++ ((List.range' i (min (k - i) fuel)).filterMap fun j => (probe j).1) := by
  intro fuel
  induction fuel with
  | zero =>
    intro i acc
    simp [attemptLoop]
  | succ f ih =>
    intro i acc
    rw [attemptLoop]
    by_cases hk : k ≤ i
    · rw [if_pos (by simpa using hk)]
      have hmin : min (k - i) (f + 1) = 0 := by omega
      simp [hmin]
    · rw [if_neg (by simpa using hk)]
      dsimp only
      rw [ih]
      have hmin : min (k - i) (f + 1) = min (k - (i + 1)) f + 1 := by omega
      rw [hmin, List.range'_succ, List.filterMap_cons]
      cases hp : (probe i).1 with
      | none => simp [hp]
      | some r => simp [hp]

/-- C7: if the cancellation signal becomes set after `k` of `n` configured
attempts (`0 < k < n`) and at least one of those `k` attempts succeeded,
the sampler stops before the next attempt and returns metrics computed from
exactly the successful samples of the first `k` attempts — median, mean,
min, max, jitter and sample count over those samples, with
`packet_loss = (n − s)/n·100` and `success_rate = s/n·100` against the
configured `n`. -/
theorem sampler_partial_cancellation (n k : Nat) (probe : Nat → Option ℚ × Option PyStr)
    (hk0 : 0 < k) (hkn : k < n)
    (hs : 1 ≤ ((List.range k).filterMap fun j => (probe j).1).length) :
    tcpAdvancedMetrics n probe (fun j => decide (k ≤ j)) =
      (let lat := (List.range k).filterMap fun j => (probe j).1
       { latencies := lat
         median := some (medianOf lat)
         mean := some (meanOf lat)
         minMs := lat.min?
         maxMs := lat.max?
         jitterSq := some (if 1 < lat.length then sampleVar lat else 0)
         packetLoss := ((n : ℚ) - lat.length) / n * 100
         successRate := (lat.length : ℚ) / n * 100
         sampleCount := lat.length
         ok := true
         err := none }) := by
  unfold tcpAdvancedMetrics
  dsimp only
  rw [attemptLoop_stop_threshold probe k n 0 ([], none)]
  have hmin : min (k - 0) n = k := by omega
  rw [hmin]
  rw [show List.range' 0 k = List.range k from (List.range_eq_range' k).symm]
  have hne : ((List.range k).filterMap fun j => (probe j).1).isEmpty = false := by
    cases hlat : (List.range k).filterMap fun j => (probe j).1 with
    | nil => rw [hlat] at hs; simp at hs
    | cons a l => simp
  rw [List.nil_append, hne]
  simp

/-- Witness for C7: five configured attempts, cancellation from attempt 2
onwards, attempts 0 and 1 succeeded with 10 ms and 20 ms. -/
theorem sampler_partial_cancellation_witness :
    (0 < 2 ∧ 2 < 5 ∧
      1 ≤ ((List.range 2).filterMap fun j =>
        ((fun i => (if i = 0 then some (10 : ℚ) else
          if i = 1 then some 20 else none, (none : Option PyStr))) j).1).length) ∧
    tcpAdvancedMetrics 5
      (fun i => (if i = 0 then some (10 : ℚ) else if i = 1 then some 20 else none,
        (none : Option PyStr)))
      (fun j => decide (2 ≤ j)) =
      (let lat := (List.range 2).filterMap fun j =>
        ((fun i => (if i = 0 then some (10 : ℚ) else
          if i = 1 then some 20 else none, (none : Option PyStr))) j).1
       { latencies := lat
         median := some (medianOf lat)
         mean := some (meanOf lat)
         minMs := lat.min?
         maxMs := lat.max?
         jitterSq := some (if 1 < lat.length then sampleVar lat else 0)
         packetLoss := ((5 : ℚ) - lat.length) / 5 * 100
         successRate := (lat.length : ℚ) / 5 * 100
         sampleCount := lat.length
         ok := true
         err := none }) :=
  ⟨⟨by decide, by decide, by decide⟩,
   sampler_partial_cancellation 5 2
     (fun i => (if i = 0 then some (10 : ℚ) else if i = 1 then some 20 else none,
       (none : Option PyStr)))
     (by decide) (by decide) (by decide)⟩

/-! ## C3 — sentinel ordering of failed/stopped rows -/

/-- C3 counterexample: the rank key ignores the status except for the TLS
bonus, so the sentinel ordering is purely numeric and fails for available
delays at or beyond the sentinel. Such delays are reachable at code level:
`icmp_ping_once` returns `max(1, v)` for whatever integer the ping output
reports (here 20000 ms, reachable with an enlarged `icmp.timeout_ms`), and
the TCP timeout is likewise configurable. The 可用(ICMP) row with delay
20000 sorts *after* the 失败 row, contradicting the claim as stated. -/
theorem sentinel_ordering_claim_false :
    startsAvail Status.availableICMP = true ∧
    icmpPingOnce true (some 20000) false = some 20000 ∧
    ¬ rkLt
      (rankKey ⟨"203.0.113.9", "github.com", 20000, Status.availableICMP, false, 0, 0⟩)
      (rankKey ⟨"198.51.100.7", "github.com", 9999, Status.failed, false, 0, 0⟩) := by
  refine ⟨by decide, by decide, ?_⟩
  intro h
  rcases h with h | ⟨he, _⟩
  · revert h; decide
  · revert he; decide

/-- C3 (amended): failed/stopped rows — which carry `delay = 9999`,
`jitter = 0`, `stability = 0` (see `test_with_retry` and
`_on_one_ip_finished`) — sort strictly after every available row whose
delay is in `[1, 2000]` and jitter in `[0, 1000]` (the ranges reachable
under the default 2-second TCP timeout), with stability in `[0, 100]`;
without such bounds the ordering can fail since the rank key ignores the
status. -/
theorem sentinel_ordering_bounded (a f : Row)
    (ha : startsAvail a.status = true)
    (hf : startsAvail f.status = false)
    (hfms : f.ms = 9999) (hfj : f.jitter = 0) (hfs : f.stability = 0)
    (hams1 : 1 ≤ a.ms) (hams2 : a.ms ≤ 2000)
    (haj1 : 0 ≤ a.jitter) (haj2 : a.jitter ≤ 1000)
    (has1 : 0 ≤ a.stability) (has2 : a.stability ≤ 100) :
    rkLt (rankKey a) (rankKey f) := by
  rw [rkLt, rankKey_closed a, rankKey_closed f]
  left
  dsimp only
  rw [hfms, hfj, hfs]
  have hq1 : ((a.ms : ℚ)) ≤ 2000 := by exact_mod_cast hams2
  have hja : (if 0 < a.jitter then a.jitter * 1.5 else 0) ≤ 1500 := by
    split_ifs with h
    · nlinarith
    · norm_num
  have hsa : (if 0 < a.stability then (100 - a.stability) * 2.0 else 0) ≤ 200 := by
    split_ifs with h
    · nlinarith
    · norm_num
  have hta : (0 : ℚ) ≤ (if hasTLSTag a.status = true then 15.0 else 0) := by
    split_ifs <;> norm_num
  have htf : (if hasTLSTag f.status = true then (15.0 : ℚ) else 0) ≤ 15 := by
    split_ifs <;> norm_num
  have hz1 : (if (0 : ℚ) < 0 then (0 : ℚ) * 1.5 else 0) = 0 := by norm_num
  have hz2 : (if (0 : ℚ) < 0 then ((100 : ℚ) - 0) * 2.0 else 0) = 0 := by norm_num
  rw [hz1, hz2]
  have hc : ((9999 : Int) : ℚ) = 9999 := by norm_num
  rw [hc]
  linarith

/-- Witness for C3 (amended): a TLS-verified row at 100 ms with jitter 5 and
stability 80 sorts before a failed row. -/
theorem sentinel_ordering_bounded_witness :
    (startsAvail (⟨"140.82.112.3", "github.com", 100, Status.availableTLS, false,
        5, 80⟩ : Row).status = true ∧
     startsAvail (⟨"198.51.100.7", "github.com", 9999, Status.failed, false,
        0, 0⟩ : Row).status = false) ∧
    rkLt
      (rankKey ⟨"140.82.112.3", "github.com", 100, Status.availableTLS, false, 5, 80⟩)
      (rankKey ⟨"198.51.100.7", "github.com", 9999, Status.failed, false, 0, 0⟩) :=
  ⟨⟨by decide, by decide⟩,
   sentinel_ordering_bounded
     ⟨"140.82.112.3", "github.com", 100, Status.availableTLS, false, 5, 80⟩
     ⟨"198.51.100.7", "github.com", 9999, Status.failed, false, 0, 0⟩
     (by decide) (by decide) rfl rfl rfl
     (by decide) (by decide) (by decide) (by decide) (by decide) (by decide)⟩

/-! ## C1 — per-domain selection prefers TLS-verified rows -/

/-- Helper: an `available_tls` row passes the `best_tls` status test. -/
theorem pTls_of_availableTLS {r : Row} (h : r.status = Status.availableTLS) :
    pTls r = true := by
  show (startsAvail r.status && hasTLSTag r.status) = true
  rw [h]
  decide

/-- C1: for every result set and every domain with at least one available
row, the best-IP selection returns a TLS-verified (`可用(TLS)`) row for that
domain whenever one exists — regardless of the rank scores of the other
available rows — and among TLS rows one of minimal rank key; only when no
TLS-verified row exists does it return the available row with minimal
composite rank key. -/
theorem best_selection_prefers_tls (rows : List Row) (d : String)
    (h : ∃ r ∈ rows, r.domain = d ∧ startsAvail r.status = true) :
    ((∃ r ∈ rows, r.domain = d ∧ r.status = Status.availableTLS) →
      ∃ r ∈ rows, r.domain = d ∧ r.status = Status.availableTLS ∧
        bestSelection rows d = some (entryOf r) ∧
        ∀ r2 ∈ rows, r2.domain = d → r2.status = Status.availableTLS →
          ¬ rkLt (rankKey r2) (rankKey r)) ∧
    ((¬ ∃ r ∈ rows, r.domain = d ∧ r.status = Status.availableTLS) →
      ∃ r ∈ rows, r.domain = d ∧ startsAvail r.status = true ∧
        bestSelection rows d = some (entryOf r) ∧
        ∀ r2 ∈ rows, r2.domain = d → startsAvail r2.status = true →
          ¬ rkLt (rankKey r2) (rankKey r)) := by
  obtain ⟨ra, hramem, hradom, hrap⟩ := h
  have hany := bestAnyMap_inv rows d
  have htls := bestTlsMap_inv rows d
  -- the any-dictionary holds an entry for d
  have hanysome : ∃ v, bestAnyMap rows d = some v := by
    cases hv : bestAnyMap rows d with
    | none => exact absurd (hany.1 hv ra hramem hradom) (by simp [pAvail, hrap])
    | some v => exact ⟨v, rfl⟩
  obtain ⟨v, hv⟩ := hanysome
  constructor
  · -- a TLS row exists for d
    intro ⟨rt, hrtmem, hrtdom, hrtst⟩
    have hrtp : pTls rt = true := pTls_of_availableTLS hrtst
    have htlssome : ∃ e, bestTlsMap rows d = some e := by
      cases he : bestTlsMap rows d with
      | none => exact absurd (htls.1 he rt hrtmem hrtdom) (by simp [hrtp])
      | some e => exact ⟨e, rfl⟩
    obtain ⟨e, he⟩ := htlssome
    obtain ⟨r0, hr0mem, hr0dom, hr0p, hr0e, hr0min⟩ := htls.2 e he
    have hr0st : r0.status = Status.availableTLS := by
      have h1 : startsAvail r0.status = true := by
        have := hr0p; simp [pTls, Bool.and_eq_true] at this; exact this.1
      have h2 : hasTLSTag r0.status = true := by
        have := hr0p; simp [pTls, Bool.and_eq_true] at this; exact this.2
      exact avail_and_tls_is_availableTLS _ h1 h2
    refine ⟨r0, hr0mem, hr0dom, hr0st, ?_, ?_⟩
    · unfold bestSelection
      rw [hv, he]
      simp [hr0e]
    · intro r2 hr2mem hr2dom hr2st
      exact hr0min r2 hr2mem hr2dom (pTls_of_availableTLS hr2st)
  · -- no TLS row exists for d
    intro hno
    have hnone : bestTlsMap rows d = none := by
      cases he : bestTlsMap rows d with
      | none => rfl
      | some e =>
        obtain ⟨r0, hr0mem, hr0dom, hr0p, _, _⟩ := htls.2 e he
        have h1 : startsAvail r0.status = true := by
          have := hr0p; simp [pTls, Bool.and_eq_true] at this; exact this.1
        have h2 : hasTLSTag r0.status = true := by
          have := hr0p; simp [pTls, Bool.and_eq_true] at this; exact this.2
        exact absurd ⟨r0, hr0mem, hr0dom, avail_and_tls_is_availableTLS _ h1 h2⟩ hno
    obtain ⟨r0, hr0mem, hr0dom, hr0p, hr0e, hr0min⟩ := hany.2 v hv
    refine ⟨r0, hr0mem, hr0dom, by simpa [pAvail] using hr0p, ?_, ?_⟩
    · unfold bestSelection
      rw [hv, hnone]
      simp [hr0e]
    · intro r2 hr2mem hr2dom hr2p
      exact hr0min r2 hr2mem hr2dom (by simpa [pAvail] using hr2p)

/-- Witness for C1, on the spec's own scenario: an `available_tls` row with
delay 100 ms and an unverified `available` row with delay 50 ms for the
same domain — selection still returns the TLS row. -/
theorem best_selection_prefers_tls_witness :
    (∃ r ∈ [(⟨"1.0.0.1", "github.com", 50, Status.available, false, 0, 0⟩ : Row),
            ⟨"140.82.112.3", "github.com", 100, Status.availableTLS, false, 0, 0⟩],
       r.domain = "github.com" ∧ startsAvail r.status = true) ∧
    (∃ r ∈ [(⟨"1.0.0.1", "github.com", 50, Status.available, false, 0, 0⟩ : Row),
            ⟨"140.82.112.3", "github.com", 100, Status.availableTLS, false, 0, 0⟩],
       r.domain = "github.com" ∧ r.status = Status.availableTLS ∧
       bestSelection
         [⟨"1.0.0.1", "github.com", 50, Status.available, false, 0, 0⟩,
          ⟨"140.82.112.3", "github.com", 100, Status.availableTLS, false, 0, 0⟩]
         "github.com" = some (entryOf r) ∧
       ∀ r2 ∈ [(⟨"1.0.0.1", "github.com", 50, Status.available, false, 0, 0⟩ : Row),
               ⟨"140.82.112.3", "github.com", 100, Status.availableTLS, false, 0, 0⟩],
         r2.domain = "github.com" → r2.status = Status.availableTLS →
           ¬ rkLt (rankKey r2) (rankKey r)) :=
  ⟨⟨⟨"1.0.0.1", "github.com", 50, Status.available, false, 0, 0⟩,
     by decide, by decide, by decide⟩,
   (best_selection_prefers_tls
      [⟨"1.0.0.1", "github.com", 50, Status.available, false, 0, 0⟩,
       ⟨"140.82.112.3", "github.com", 100, Status.availableTLS, false, 0, 0⟩]
      "github.com"
      ⟨⟨"1.0.0.1", "github.com", 50, Status.available, false, 0, 0⟩,
        by decide, by decide, by decide⟩).1
     ⟨⟨"140.82.112.3", "github.com", 100, Status.availableTLS, false, 0, 0⟩,
       by decide, by decide, by decide⟩⟩

end SmartHosts
